import Mathlib

/-!
# Shallow embedding of `src/motion_detector.cpp`

This file models the motion-decision engine of the picapture motion
detector: per-color HSV segmentation (`inRangeMask`, `bitwiseOr`,
`colorMask`), morphological filtering (`applyMorphology`), centroid
extraction from image moments (`maskMoments`, `procCentroid`), the
per-frame detection loop over the color list (`detectStep`, `detect`),
and the per-cycle recording state machine of `main`'s inner loop
(`CycleState`, `processFrame`, `runFrames`).

Modelling conventions:
* A frame is a finite list of pixels, each a coordinate (`Pt`, with the
  `cv::Point` integer coordinates) paired with its HSV value.  The C++
  code converts the BGR frame to HSV (`cvtColor`, a deterministic
  per-pixel map) before every range test; the embedding works on the
  HSV image directly.
* A mask pairs each coordinate with a Boolean (OpenCV: 255 / 0).
* Machine doubles only appear in exact comparisons of integer-valued
  quantities (`norm(...) > 30.0`, `difftime(...) >= 10`,
  `int(15.0 * 30 + 0.5)`), so they are embedded as exact integer /
  rational arithmetic: for integer displacements `dx, dy`,
  `sqrt (dx^2 + dy^2) > 30` holds iff `dx^2 + dy^2 > 30^2`.
* `time_t` timestamps are `Int` seconds; `difftime now last` is
  `now - last`.
* The external camera is a stream of `Option Frame` inputs (`none` is
  the empty frame of a disconnected camera); the external `VideoWriter`
  sink is observed through the `writerOpen` flag and the list `written`
  of frames passed to `writer.write`.
-/

namespace MotionDetector

/-- One HSV pixel value (hue, saturation, value channels). -/
structure HSV where
  hch : Nat
  sch : Nat
  vch : Nat
deriving DecidableEq, Repr, Inhabited

/-- `cv::Point` with integer coordinates. -/
structure Pt where
  x : Int
  y : Int
deriving DecidableEq, Repr

/-- The sentinel `Point(-1, -1)` used for "no prior centroid". -/
def invalidPt : Pt := ⟨-1, -1⟩

/-- `ColorRange { lower, upper }` from `motion_detector.h`. -/
structure ColorRange where
  lower : HSV
  upper : HSV
deriving DecidableEq, Repr, Inhabited

/-- `{Scalar(100, 100, 50), Scalar(130, 255, 255)}` — Blue. -/
def blueRange : ColorRange := ⟨⟨100, 100, 50⟩, ⟨130, 255, 255⟩⟩

/-- `{Scalar(0, 100, 50), Scalar(10, 255, 255)}` — Red part 1. -/
def redPart1 : ColorRange := ⟨⟨0, 100, 50⟩, ⟨10, 255, 255⟩⟩

/-- `{Scalar(160, 100, 50), Scalar(179, 255, 255)}` — Red part 2. -/
def redPart2 : ColorRange := ⟨⟨160, 100, 50⟩, ⟨179, 255, 255⟩⟩

/-- `{Scalar(40, 70, 50), Scalar(80, 255, 255)}` — Green. -/
def greenRange : ColorRange := ⟨⟨40, 70, 50⟩, ⟨80, 255, 255⟩⟩

/-- `{Scalar(20, 100, 100), Scalar(30, 255, 255)}` — Yellow. -/
def yellowRange : ColorRange := ⟨⟨20, 100, 100⟩, ⟨30, 255, 255⟩⟩

/-- `{Scalar(0, 0, 200), Scalar(179, 30, 255)}` — White. -/
def whiteRange : ColorRange := ⟨⟨0, 0, 200⟩, ⟨179, 30, 255⟩⟩

/-- `const vector<ColorRange> colorRanges = { Blue, Red part 1, Red part 2,
Green, Yellow, White }` (lines 14–21). -/
def colorRanges : List ColorRange :=
  [blueRange, redPart1, redPart2, greenRange, yellowRange, whiteRange]

/-- A frame: each pixel coordinate with its HSV value. -/
abbrev Frame : Type := List (Pt × HSV)

/-- A binary mask: each pixel coordinate with a Boolean. -/
abbrev Mask : Type := List (Pt × Bool)

/-- `cv::inRange` on one pixel: inclusive bounds on all three channels. -/
def inRangeB (lo hi p : HSV) : Bool :=
  decide (lo.hch ≤ p.hch) && decide (p.hch ≤ hi.hch) &&
  decide (lo.sch ≤ p.sch) && decide (p.sch ≤ hi.sch) &&
  decide (lo.vch ≤ p.vch) && decide (p.vch ≤ hi.vch)

/-- `inRange(hsv, r.lower, r.upper, mask)`: the per-pixel range test. -/
def inRangeMask (f : Frame) (r : ColorRange) : Mask :=
  f.map (fun q => (q.1, inRangeB r.lower r.upper q.2))

/-- `bitwise_or(m1, m2, mask)` of two masks over the same pixel grid. -/
def bitwiseOr (a b : Mask) : Mask :=
  List.zipWith (fun p q => (p.1, p.2 || q.2)) a b

/-- Mask value at a point, with a default for coordinates outside the
mask's pixel list (OpenCV pads erosion with the maximal value and
dilation with the minimal one, so callers pass `true` resp. `false`). -/
def maskGet (m : Mask) (p : Pt) (dflt : Bool) : Bool :=
  ((m.find? (fun q => decide (q.1 = p))).map Prod.snd).getD dflt

/-- Rounded integer square root, `cvRound (sqrt n)`: the largest `k`
with `(2 * k - 1) ^ 2 ≤ 4 * n`, found by a bounded search (one less
than the count of such `k ≤ n`, every smaller `k` also qualifying). -/
def roundSqrt (n : Nat) : Nat :=
  ((List.range (n + 1)).filter (fun k => decide ((2 * k - 1) ^ 2 ≤ 4 * n))).length - 1

/-- One row of the elliptical structuring element: offsets `(dx, dy)`
with `|dx|` at most the rounded half-width of the inscribed disk. -/
def kernelRow (r : Nat) (dy : Int) : List (Int × Int) :=
  (List.range (2 * roundSqrt (r * r - dy.natAbs * dy.natAbs) + 1)).map
    (fun ix => ((ix : Int) - (roundSqrt (r * r - dy.natAbs * dy.natAbs) : Int), dy))

/-- `getStructuringElement(MORPH_ELLIPSE, Size(r * 2 + 1, r * 2 + 1))`:
the offsets of the rasterized disk of radius `r`. -/
def kernelOffsets (r : Nat) : List (Int × Int) :=
  ((List.range (2 * r + 1)).map (fun iy => kernelRow r ((iy : Int) - (r : Int)))).flatten

/-- Translate a point by a kernel offset. -/
def ptAdd (p : Pt) (d : Int × Int) : Pt := ⟨p.x + d.1, p.y + d.2⟩

/-- `erode(dst, dst, kernel)`: minimum over the structuring element,
out-of-image neighbours padded with the maximal value. -/
def erode (r : Nat) (m : Mask) : Mask :=
  m.map (fun q => (q.1, (kernelOffsets r).all (fun d => maskGet m (ptAdd q.1 d) true)))

/-- `dilate(dst, dst, kernel)`: maximum over the structuring element,
out-of-image neighbours padded with the minimal value. -/
def dilate (r : Nat) (m : Mask) : Mask :=
  m.map (fun q => (q.1, (kernelOffsets r).any (fun d => maskGet m (ptAdd q.1 d) false)))

/-- `applyMorphology` (lines 23–34): clone, erode when `erodeSize > 0`,
then dilate when `dilateSize > 0`. -/
def applyMorphology (src : Mask) (eSize dSize : Nat) : Mask :=
  let d1 := if 0 < eSize then erode eSize src else src
  if 0 < dSize then dilate dSize d1 else d1

/-- The three moments of `moments(proc, true)` that the code reads:
`m00` (mass), `m10` (x-weighted mass), `m01` (y-weighted mass) of the
binary image. -/
structure Mom where
  m00 : Int
  m10 : Int
  m01 : Int
deriving DecidableEq, Repr

/-- `moments(proc, true)`: every nonzero mask pixel counts as 1. -/
def maskMoments (m : Mask) : Mom :=
  m.foldl
    (fun acc q =>
      if q.2 then ⟨acc.m00 + 1, acc.m10 + q.1.x, acc.m01 + q.1.y⟩ else acc)
    ⟨0, 0, 0⟩

/-- `const double motionThreshold = 30.0` (integer-valued). -/
def motionThreshold : Int := 30

/-- `const int quietPeriod = 10` seconds. -/
def quietPeriod : Int := 10

/-- `const int erodeSize = 2`. -/
def erodeSize : Nat := 2

/-- `const int dilateSize = 2`. -/
def dilateSize : Nat := 2

/-- `const double writeFps = 15.0`. -/
def writeFps : ℚ := 15

/-- `const int recordDurationS = 30`. -/
def recordDurationS : ℚ := 30

/-- `const int maxRecordingFrames = int(writeFps * recordDurationS + 0.5)`:
truncation of the (positive) double towards zero, i.e. the floor. -/
def maxRecordingFrames : Nat := (⌊writeFps * recordDurationS + 1 / 2⌋).toNat

/-- `norm(c - last) > motionThreshold`: for integer coordinates the
Euclidean norm exceeds 30 exactly when the squared norm exceeds 900. -/
def movedBeyond (c p : Pt) : Prop :=
  motionThreshold ^ 2 < (c.x - p.x) ^ 2 + (c.y - p.y) ^ 2

instance (c p : Pt) : Decidable (movedBeyond c p) := by
  unfold movedBeyond
  exact inferInstance

/-- The mask the loop body builds for color index `i` (lines 104–112):
for `i = 1` the union of the two red sub-ranges, otherwise the single
range `colorRanges[i]`. -/
def colorMask (hsv : Frame) (i : Nat) : Mask :=
  if i = 1 then
    bitwiseOr (inRangeMask hsv (colorRanges.getD 1 default))
      (inRangeMask hsv (colorRanges.getD 2 default))
  else
    inRangeMask hsv (colorRanges.getD i default)

/-- `Mat proc = applyMorphology(mask, erodeSize, dilateSize)` (line 114). -/
def procMask (hsv : Frame) (i : Nat) : Mask :=
  applyMorphology (colorMask hsv i) erodeSize dilateSize

/-- Lines 115–117: the centroid
`Point(int(M.m10 / M.m00), int(M.m01 / M.m00))` of the filtered mask
when `M.m00 > 0`, and no centroid otherwise.  The `int` cast truncates
towards zero, which is `Int.tdiv`. -/
def procCentroid (hsv : Frame) (i : Nat) : Option Pt :=
  let M := maskMoments (procMask hsv i)
  if 0 < M.m00 then some ⟨Int.tdiv M.m10 M.m00, Int.tdiv M.m01 M.m00⟩ else none

/-- The color loop of lines 101–133, over the list of remaining color
indices.  Returns the updated `lastCentroids` vector and `some i` when
color `i` triggered (the `break` of line 129), `none` when the loop ran
out of colors without detecting motion. -/
def detectStep (hsv : Frame) : List Nat → List Pt → List Pt × Option Nat
  | [], cents => (cents, none)
  | i :: rest, cents =>
    match procCentroid hsv i with
    | none => detectStep hsv rest cents
    | some c =>
      if cents.getD i invalidPt ≠ invalidPt ∧ movedBeyond c (cents.getD i invalidPt) then
        (cents, some i)
      else
        detectStep hsv rest (cents.set i c)

/-- One full detection attempt: `for (size_t i = 0; i < colorRanges.size(); ++i)`. -/
def detect (hsv : Frame) (cents : List Pt) : List Pt × Option Nat :=
  detectStep hsv (List.range colorRanges.length) cents

/-- The per-cycle mutable state of `main`'s inner loop (lines 72–84):
the tracked centroids, the quiet-period timestamp, the recording flag
and frame counter, plus the observable interface to the external video
sink (`writerOpen` mirrors `writer.isOpened()`, `written` records the
frames passed to `writer.write` in order). -/
structure CycleState where
  lastCentroids : List Pt
  lastSnapshot : Int
  isRecording : Bool
  recordingFrames : Nat
  writerOpen : Bool
  written : List Frame
deriving DecidableEq

/-- The state at the top of a cycle (lines 79–84): all centroids reset
to the invalid sentinel and `lastSnapshot = time(nullptr) - quietPeriod`,
so the quiet-period gate passes immediately. -/
def initCycleState (startTime : Int) : CycleState :=
  { lastCentroids := List.replicate colorRanges.length invalidPt
    lastSnapshot := startTime - quietPeriod
    isRecording := false
    recordingFrames := 0
    writerOpen := false
    written := [] }

/-- Line 97: `!isRecording && difftime(now, lastSnapshot) >= quietPeriod`. -/
def attemptGate (now : Int) (s : CycleState) : Prop :=
  s.isRecording = false ∧ quietPeriod ≤ now - s.lastSnapshot

instance (now : Int) (s : CycleState) : Decidable (attemptGate now s) := by
  unfold attemptGate
  exact inferInstance

/-- The body of the gated detection attempt (lines 98–137): run the
color loop; on a trigger open the writer, start recording and zero the
frame counter (the timestamp is left alone); on "no motion" store the
attempt time in `lastSnapshot`. -/
def runAttempt (now : Int) (f : Frame) (s : CycleState) : CycleState :=
  match detect f s.lastCentroids with
  | (cents, some _) =>
    { s with lastCentroids := cents, isRecording := true,
             recordingFrames := 0, writerOpen := true }
  | (cents, none) =>
    { s with lastCentroids := cents, lastSnapshot := now }

/-- The result of processing one acquired frame: `fatal` is the
`return 1` of line 92, `clipDone` the `break` of line 147 after the
clip reached its frame cap, `next` the fall-through to the next
iteration of the inner loop. -/
inductive StepResult where
  | fatal
  | next (s : CycleState)
  | clipDone (s : CycleState)
deriving DecidableEq

/-- The write-and-stop block of lines 141–149: while recording, write
the frame, bump the counter, and when it reaches
`maxRecordingFrames` release the writer, clear the flag and leave the
inner loop. -/
def writePhase (f : Frame) (s : CycleState) : StepResult :=
  if s.isRecording then
    let s1 := { s with written := s.written ++ [f],
                       recordingFrames := s.recordingFrames + 1 }
    if maxRecordingFrames ≤ s1.recordingFrames then
      .clipDone { s1 with isRecording := false, writerOpen := false }
    else
      .next s1
  else
    .next s

/-- One iteration of the inner loop (lines 87–149) on the acquired
frame: an empty frame (`none`) is fatal (lines 90–93); otherwise the
gated detection attempt runs, then the recording write phase. -/
def processFrame (now : Int) (f : Option Frame) (s : CycleState) : StepResult :=
  match f with
  | none => .fatal
  | some fr =>
    let s1 := if attemptGate now s then runAttempt now fr s else s
    writePhase fr s1

/-- The outcome of feeding a finite stream of timestamped camera reads
to the inner loop: `fatal` carries the state at the moment the empty
frame arrived (nothing further is consumed), `clipDone` the state at
the `break` together with the unconsumed input, `ranOut` the state
when the supplied input ends. -/
inductive RunOutcome where
  | fatal (s : CycleState)
  | clipDone (s : CycleState) (rest : List (Int × Option Frame))
  | ranOut (s : CycleState)
deriving DecidableEq

/-- Run the inner loop over a list of `(timestamp, camera read)` pairs. -/
def runFrames : List (Int × Option Frame) → CycleState → RunOutcome
  | [], s => .ranOut s
  | (t, f) :: rest, s =>
    match processFrame t f s with
    | .fatal => .fatal s
    | .clipDone s1 => .clipDone s1 rest
    | .next s1 => runFrames rest s1

/-! ## Concrete test inputs

Small concrete frames and states used to instantiate the theorems
below.  Each pixel value lies in exactly one color class. -/

/-- An HSV value inside the Blue range and no other. -/
def bluePix : HSV := ⟨110, 150, 150⟩

/-- An HSV value inside the Yellow range and no other. -/
def yellowPix : HSV := ⟨25, 150, 150⟩

/-- An HSV value inside the Red part 2 range and no other. -/
def red2Pix : HSV := ⟨170, 150, 150⟩

/-- An HSV value outside every tracked color range. -/
def offPix : HSV := ⟨15, 50, 40⟩

/-- One blue pixel at `(40, 0)`. -/
def frameBlue40 : Frame := [(⟨40, 0⟩, bluePix)]

/-- One blue pixel at `(30, 0)`: displacement from the origin exactly
equal to the motion threshold. -/
def frameBlue30 : Frame := [(⟨30, 0⟩, bluePix)]

/-- A blue pixel at `(40, 0)` and a yellow pixel at `(50, 7)`. -/
def frameBlueYellow : Frame := [(⟨40, 0⟩, bluePix), (⟨50, 7⟩, yellowPix)]

/-- One red-part-2 pixel at `(40, 0)`. -/
def frameRed2 : Frame := [(⟨40, 0⟩, red2Pix)]

/-- One pixel matching no tracked color. -/
def frameOff : Frame := [(⟨0, 0⟩, offPix)]

/-- An idle state whose quiet-period timestamp is `0` and whose
centroids are all invalid. -/
def idleState : CycleState :=
  { lastCentroids := List.replicate 6 invalidPt
    lastSnapshot := 0
    isRecording := false
    recordingFrames := 0
    writerOpen := false
    written := [] }

/-- An idle state primed to trigger on `frameBlue40`: the tracked blue
centroid sits at the origin and the gate is open for `now = 0`. -/
def primedState : CycleState :=
  { lastCentroids := [⟨0, 0⟩, invalidPt, invalidPt, invalidPt, invalidPt, invalidPt]
    lastSnapshot := -10
    isRecording := false
    recordingFrames := 0
    writerOpen := false
    written := [] }

/-- The tracked-centroid vector that primes both the blue slot (index
0) and the yellow slot (index 4) at the origin. -/
def centsBlueYellow : List Pt :=
  [⟨0, 0⟩, invalidPt, invalidPt, invalidPt, ⟨0, 0⟩, invalidPt]

/-- The tracked-centroid vector whose only valid entry is slot 2, the
standalone red-part-2 slot. -/
def centsRed2 : List Pt :=
  [invalidPt, invalidPt, ⟨0, 0⟩, invalidPt, invalidPt, invalidPt]

/-- The tracked-centroid vector whose only valid entry is slot 3
(green), used to observe that an empty green mask leaves it alone. -/
def centsGreen : List Pt :=
  [invalidPt, invalidPt, invalidPt, ⟨5, 5⟩, invalidPt, invalidPt]

/-! ## Helper lemmas -/

/-- `maxRecordingFrames` evaluates to 450 frames. -/
lemma maxRecordingFrames_eq : maxRecordingFrames = 450 := by
  have h : ⌊(writeFps * recordDurationS + 1 / 2 : ℚ)⌋ = 450 := by
    rw [Int.floor_eq_iff]
    norm_num [writeFps, recordDurationS]
  unfold maxRecordingFrames
  rw [h]
  rfl

/-- `List.getD` after `List.set` at a different index. -/
lemma getD_set_ne (l : List Pt) (i k : Nat) (c d : Pt) (h : i ≠ k) :
    (l.set i c).getD k d = l.getD k d := by
  simp [List.getD_eq_getElem?_getD, List.getElem?_set_ne h]

/-- Splitting the color loop: if the first block of indices finds no
motion, the loop continues into the second block from the updated
centroids. -/
lemma detectStep_append_none (hsv : Frame) (l1 l2 : List Nat) (cents c0 : List Pt)
    (h : detectStep hsv l1 cents = (c0, none)) :
    detectStep hsv (l1 ++ l2) cents = detectStep hsv l2 c0 := by
  induction l1 generalizing cents with
  | nil =>
    simp only [detectStep] at h
    injection h with h1 h2
    subst h1
    rfl
  | cons i rest ih =>
    simp only [detectStep, List.cons_append] at h ⊢
    cases hc : procCentroid hsv i with
    | none =>
      simp only [hc] at h ⊢
      exact ih _ h
    | some c =>
      simp only [hc] at h ⊢
      by_cases hcond : cents.getD i invalidPt ≠ invalidPt ∧ movedBeyond c (cents.getD i invalidPt)
      · rw [if_pos hcond] at h
        cases h
      · rw [if_neg hcond] at h ⊢
        exact ih _ h

/-- Once a color triggers, the appended indices are never examined. -/
lemma detectStep_append_some (hsv : Frame) (l1 l2 : List Nat) (cents c0 : List Pt) (i : Nat)
    (h : detectStep hsv l1 cents = (c0, some i)) :
    detectStep hsv (l1 ++ l2) cents = (c0, some i) := by
  induction l1 generalizing cents with
  | nil => simp [detectStep] at h
  | cons j rest ih =>
    simp only [detectStep, List.cons_append] at h ⊢
    cases hc : procCentroid hsv j with
    | none =>
      simp only [hc] at h ⊢
      exact ih _ h
    | some c =>
      simp only [hc] at h ⊢
      by_cases hcond : cents.getD j invalidPt ≠ invalidPt ∧ movedBeyond c (cents.getD j invalidPt)
      · rw [if_pos hcond] at h ⊢
        exact h
      · rw [if_neg hcond] at h ⊢
        exact ih _ h

/-- The color loop never writes to a centroid slot whose index it does
not visit. -/
lemma detectStep_getD_not_mem (hsv : Frame) (l : List Nat) (cents : List Pt) (k : Nat) (d : Pt)
    (hk : k ∉ l) : ((detectStep hsv l cents).1).getD k d = cents.getD k d := by
  induction l generalizing cents with
  | nil => rfl
  | cons i rest ih =>
    have hki : i ≠ k := fun e => hk (e ▸ List.mem_cons_self i rest)
    have hkr : k ∉ rest := fun h => hk (List.mem_cons_of_mem _ h)
    simp only [detectStep]
    cases hc : procCentroid hsv i with
    | none =>
      simp only [hc]
      exact ih _ hkr
    | some c =>
      simp only [hc]
      by_cases hcond : cents.getD i invalidPt ≠ invalidPt ∧ movedBeyond c (cents.getD i invalidPt)
      · rw [if_pos hcond]
      · rw [if_neg hcond, ih _ hkr, getD_set_ne _ _ _ _ _ hki]

/-- When every visited slot holds the invalid sentinel, the loop cannot
trigger: the comparison of line 118 is skipped for every color. -/
lemma detectStep_none_of_invalid (hsv : Frame) (l : List Nat) (cents : List Pt)
    (hnd : l.Nodup) (hinv : ∀ k ∈ l, cents.getD k invalidPt = invalidPt) :
    (detectStep hsv l cents).2 = none := by
  induction l generalizing cents with
  | nil => rfl
  | cons i rest ih =>
    have hi : cents.getD i invalidPt = invalidPt := hinv i (List.mem_cons_self i rest)
    have hir : i ∉ rest := (List.nodup_cons.mp hnd).1
    have hndr : rest.Nodup := (List.nodup_cons.mp hnd).2
    simp only [detectStep]
    cases hc : procCentroid hsv i with
    | none =>
      simp only [hc]
      exact ih _ hndr fun k hk => hinv k (List.mem_cons_of_mem _ hk)
    | some c =>
      simp only [hc]
      rw [if_neg (fun hcond => hcond.1 hi)]
      refine ih _ hndr fun k hk => ?_
      have hik : i ≠ k := fun e => hir (e ▸ hk)
      rw [getD_set_ne _ _ _ _ _ hik]
      exact hinv k (List.mem_cons_of_mem _ hk)

/-- A color whose filtered mask yields no centroid never has its slot
rewritten by the loop. -/
lemma detectStep_getD_of_procNone (hsv : Frame) (l : List Nat) (cents : List Pt) (i : Nat) (d : Pt)
    (h : procCentroid hsv i = none) :
    ((detectStep hsv l cents).1).getD i d = cents.getD i d := by
  induction l generalizing cents with
  | nil => rfl
  | cons j rest ih =>
    simp only [detectStep]
    cases hj : procCentroid hsv j with
    | none =>
      simp only [hj]
      exact ih _
    | some c =>
      simp only [hj]
      have hne : j ≠ i := by
        intro e
        rw [e, h] at hj
        cases hj
      by_cases hcond : cents.getD j invalidPt ≠ invalidPt ∧ movedBeyond c (cents.getD j invalidPt)
      · rw [if_pos hcond]
      · rw [if_neg hcond, ih _, getD_set_ne _ _ _ _ _ hne]

/-- `zipWith` of two maps over the same list is a single map. -/
lemma zipWith_map_same {α β γ δ : Type} (f : α → β) (g : α → γ) (op : β → γ → δ) (l : List α) :
    List.zipWith op (l.map f) (l.map g) = l.map fun x => op (f x) (g x) := by
  induction l with
  | nil => rfl
  | cons a rest ih => simp [ih]

/-- A stream in which every read yields a frame loses nothing to
`filterMap`. -/
lemma length_filterMap_isSome (fs : List (Int × Option Frame))
    (h : ∀ x ∈ fs, x.2.isSome) :
    (fs.filterMap fun x => x.2).length = fs.length := by
  induction fs with
  | nil => rfl
  | cons p rest ih =>
    obtain ⟨g, hg⟩ := Option.isSome_iff_exists.mp (h p (List.mem_cons_self p rest))
    simp [List.filterMap_cons, hg, ih fun x hx => h x (List.mem_cons_of_mem _ hx)]

/-- The step on the frame that triggers motion: the attempt fires, the
loop reports a color, and the write phase of the same iteration already
writes this very frame, leaving the counter at 1. -/
lemma processFrame_trigger (now : Int) (f : Frame) (s : CycleState)
    (h1 : attemptGate now s) (h2 : ((detect f s.lastCentroids).2).isSome) :
    processFrame now (some f) s =
      .next { s with lastCentroids := (detect f s.lastCentroids).1,
                     isRecording := true, recordingFrames := 1, writerOpen := true,
                     written := s.written ++ [f] } := by
  rcases hd : detect f s.lastCentroids with ⟨cents, r⟩
  cases r with
  | none =>
    rw [hd] at h2
    cases h2
  | some i =>
    have hlt : ¬ maxRecordingFrames ≤ 0 + 1 := by
      rw [maxRecordingFrames_eq]
      omega
    simp only [processFrame, runAttempt, writePhase, if_pos h1, hd]
    rw [if_pos trivial, if_neg hlt]

/-- While a clip is being recorded, feeding exactly the missing number
of frames writes them all in order and closes the session at the cap. -/
lemma runFrames_recording (fs : List (Int × Option Frame)) :
    ∀ s : CycleState, s.isRecording = true →
    s.recordingFrames < maxRecordingFrames →
    s.recordingFrames + fs.length = maxRecordingFrames →
    (∀ x ∈ fs, x.2.isSome) →
    ∃ s1, runFrames fs s = .clipDone s1 [] ∧
      s1.written = s.written ++ (fs.filterMap fun x => x.2) ∧
      s1.isRecording = false ∧ s1.writerOpen = false := by
  induction fs with
  | nil =>
    intro s h1 h2 h3 _
    simp only [List.length_nil, Nat.add_zero] at h3
    omega
  | cons p rest ih =>
    intro s h1 h2 h3 h4
    obtain ⟨t, g?⟩ := p
    obtain ⟨g, hg⟩ := Option.isSome_iff_exists.mp (h4 _ (List.mem_cons_self _ rest))
    simp only at hg
    subst hg
    have hgate : ¬ attemptGate t s := by
      intro hgt
      have hf : s.isRecording = false := hgt.1
      rw [h1] at hf
      cases hf
    simp only [runFrames, processFrame, writePhase, if_neg hgate, h1, if_pos trivial]
    cases rest with
    | nil =>
      have hcap : maxRecordingFrames ≤ s.recordingFrames + 1 := by
        simp only [List.length_cons, List.length_nil] at h3
        omega
      rw [if_pos hcap]
      refine ⟨_, rfl, ?_, rfl, rfl⟩
      simp [List.filterMap_cons]
    | cons q rest2 =>
      simp only [List.length_cons] at h3
      have hcap : ¬ maxRecordingFrames ≤ s.recordingFrames + 1 := by omega
      rw [if_neg hcap]
      have h2b : s.recordingFrames + 1 < maxRecordingFrames := by omega
      have h3b : s.recordingFrames + 1 + (q :: rest2).length = maxRecordingFrames := by
        simp only [List.length_cons]
        omega
      obtain ⟨s1, hrun, hw, hrec, hopen⟩ :=
        ih { s with isRecording := true, written := s.written ++ [g],
                    recordingFrames := s.recordingFrames + 1 }
          rfl h2b h3b (fun x hx => h4 x (List.mem_cons_of_mem _ hx))
      refine ⟨s1, hrun, ?_, hrec, hopen⟩
      rw [hw]
      simp [List.filterMap_cons, List.append_assoc]


/-- `movedBeyond` is the strict Euclidean-distance comparison of line
119: the displacement's norm strictly exceeds the motion threshold. -/
lemma movedBeyond_iff_dist (c p : Pt) :
    movedBeyond c p ↔
      ((motionThreshold : ℤ) : ℝ) <
        Real.sqrt (((c.x - p.x : ℤ) : ℝ) ^ 2 + ((c.y - p.y : ℤ) : ℝ) ^ 2) := by
  rw [Real.lt_sqrt (by norm_num [motionThreshold])]
  unfold movedBeyond
  constructor
  · intro h
    exact_mod_cast h
  · intro h
    exact_mod_cast h

/-- A gated attempt that finds no motion stores the new centroids and
resets the quiet-period timestamp to the attempt time. -/
lemma processFrame_noMotion (now : Int) (f : Frame) (s : CycleState)
    (h0 : s.isRecording = false) (h1 : attemptGate now s)
    (h2 : (detect f s.lastCentroids).2 = none) :
    processFrame now (some f) s =
      .next { s with lastCentroids := (detect f s.lastCentroids).1, lastSnapshot := now } := by
  rcases hd : detect f s.lastCentroids with ⟨cents, r⟩
  rw [hd] at h2
  simp only at h2
  subst h2
  simp only [processFrame, runAttempt, writePhase, if_pos h1, hd, h0]
  rfl

/-- When the gate is closed and nothing is recording, the frame passes
through without any state change. -/
lemma processFrame_skip (now : Int) (f : Frame) (s : CycleState)
    (h0 : s.isRecording = false) (h1 : ¬ attemptGate now s) :
    processFrame now (some f) s = .next s := by
  simp only [processFrame, writePhase, if_neg h1, h0]
  rfl

/-- C1 counterexample: a frame containing only a red-part-2 pixel at
`(40, 0)`, against centroids whose only valid slot is index 2, makes
the loop trigger at index 2 — the red-part-2 entry is evaluated again
as a separate color with its own tracked centroid `lastCentroids[2]`,
contradicting the claim that it is not. -/
theorem C1_redPart2_counterexample :
    colorRanges.getD 2 default = redPart2 ∧
    (detect frameRed2 centsRed2).2 = some 2 := by
  constructor
  · rfl
  · decide

/-- C1 amended: the engine iterates all six entries of `colorRanges`
in declaration order (indices 0–5); the index-1 mask is the union of
the two red sub-ranges, but index 2 (red part 2) is additionally
evaluated as its own color with the single red-part-2 range. -/
theorem C1_iterationOrder (hsv : Frame) (cents : List Pt) :
    detect hsv cents = detectStep hsv [0, 1, 2, 3, 4, 5] cents ∧
    colorMask hsv 1 = bitwiseOr (inRangeMask hsv redPart1) (inRangeMask hsv redPart2) ∧
    colorMask hsv 2 = inRangeMask hsv redPart2 :=
  ⟨rfl, rfl, rfl⟩

/-- C2 counterexample: with the last no-motion attempt stamped at time
0 and a quiet period of 10 s, a frame arriving at time exactly 10 (the
boundary) does run a detection attempt — observable because the
attempt's no-motion outcome rewrites `lastSnapshot` to 10 — whereas the
claim says an attempt at the exact boundary must not fire. -/
theorem C2_boundary_counterexample :
    (10 : Int) - idleState.lastSnapshot = quietPeriod ∧
    processFrame 10 (some frameOff) idleState =
      .next { idleState with lastSnapshot := 10 } := by
  constructor
  · decide
  · decide

/-- C2 amended: after a "no motion" attempt at time `now`, the next
detection attempt is gated until `quietPeriod ≤ later - now`; the
boundary is inclusive (`>=` in line 97), so an attempt arriving when
the elapsed time equals the quiet period exactly does fire. -/
theorem C2_quietPeriodGate (now : Int) (f : Frame) (s : CycleState)
    (h0 : s.isRecording = false) (h1 : attemptGate now s)
    (h2 : (detect f s.lastCentroids).2 = none) :
    ∃ s1, processFrame now (some f) s = .next s1 ∧
      s1.lastSnapshot = now ∧ s1.isRecording = false ∧
      (∀ later : Int, attemptGate later s1 ↔ quietPeriod ≤ later - now) := by
  refine ⟨_, processFrame_noMotion now f s h0 h1 h2, rfl, h0, fun later => ?_⟩
  constructor
  · intro hg
    exact hg.2
  · intro hg
    exact ⟨h0, hg⟩

/-- C2 witness: instantiating the amended gate law at time 0 from a
state stamped 10 s in the past, with a frame matching no color. -/
theorem C2_quietPeriodGate_witness :
    ∃ s1, processFrame 0 (some frameOff) primedState = .next s1 ∧
      s1.lastSnapshot = 0 ∧ s1.isRecording = false ∧
      (∀ later : Int, attemptGate later s1 ↔ quietPeriod ≤ later - 0) :=
  C2_quietPeriodGate 0 frameOff primedState (by decide) (by decide) (by decide)

/-- C6: on the very first detection attempt of a freshly reset cycle
no displacement triggers recording: every slot holds the invalid
sentinel, so the comparison of line 118 is skipped for every color,
and the frame leaves the state idle with nothing written. -/
theorem C6_firstAttemptImmunity (t t0 : Int) (f : Frame) :
    (detect f (initCycleState t0).lastCentroids).2 = none ∧
    ∃ s1, processFrame t (some f) (initCycleState t0) = .next s1 ∧
      s1.isRecording = false ∧ s1.written = [] := by
  have hnone : (detect f (initCycleState t0).lastCentroids).2 = none := by
    apply detectStep_none_of_invalid
    · exact List.nodup_range _
    · intro k hk
      show (List.replicate colorRanges.length invalidPt).getD k invalidPt = invalidPt
      rcases Nat.lt_or_ge k (List.replicate colorRanges.length invalidPt).length with h | h
      · rw [List.getD_eq_getElem _ _ h]
        exact List.getElem_replicate _ _
      · exact List.getD_eq_default _ _ h
  refine ⟨hnone, ?_⟩
  by_cases hg : attemptGate t (initCycleState t0)
  · exact ⟨_, processFrame_noMotion t f _ rfl hg hnone, rfl, rfl⟩
  · exact ⟨_, processFrame_skip t f _ rfl hg, rfl, rfl⟩

/-- C8: an empty camera read is fatal on the spot: the step reports
the fatal outcome and the run ends with the state unchanged, without
consuming any of the remaining input — no further acquisition,
detection, or recording. -/
theorem C8_emptyFrameFatal (t : Int) (rest : List (Int × Option Frame)) (s : CycleState) :
    processFrame t none s = .fatal ∧
    runFrames ((t, none) :: rest) s = .fatal s :=
  ⟨rfl, rfl⟩

/-- C9: the index-1 ("red") mask marks a pixel exactly when its HSV
value lies in the first or the second red sub-range — each pixel
appears once, and pixels matching neither sub-range are unmarked
regardless of any other color's range. -/
theorem C9_redUnionMask (hsv : Frame) :
    colorMask hsv 1 =
      hsv.map fun q =>
        (q.1, inRangeB redPart1.lower redPart1.upper q.2 ||
              inRangeB redPart2.lower redPart2.upper q.2) := by
  show bitwiseOr (inRangeMask hsv redPart1) (inRangeMask hsv redPart2) = _
  unfold bitwiseOr inRangeMask
  rw [zipWith_map_same]



/-- C3: for a color `i` whose filtered mask yields a valid centroid
`c` while a valid previous centroid is stored, motion is declared for
`i` (and the loop stops there) exactly when the Euclidean distance
between the two strictly exceeds the motion threshold; otherwise —
including a displacement exactly equal to the threshold — the loop
stores `c` and moves on to the remaining colors. -/
theorem C3_strictThreshold (hsv : Frame) (i : Nat) (rest : List Nat) (cents : List Pt) (c : Pt)
    (hc : procCentroid hsv i = some c)
    (hv : cents.getD i invalidPt ≠ invalidPt) :
    (movedBeyond c (cents.getD i invalidPt) ↔
       ((motionThreshold : ℤ) : ℝ) <
         Real.sqrt (((c.x - (cents.getD i invalidPt).x : ℤ) : ℝ) ^ 2 +
           ((c.y - (cents.getD i invalidPt).y : ℤ) : ℝ) ^ 2)) ∧
    (movedBeyond c (cents.getD i invalidPt) →
       detectStep hsv (i :: rest) cents = (cents, some i)) ∧
    (¬ movedBeyond c (cents.getD i invalidPt) →
       detectStep hsv (i :: rest) cents = detectStep hsv rest (cents.set i c)) := by
  refine ⟨movedBeyond_iff_dist c (cents.getD i invalidPt), ?_, ?_⟩
  · intro hm
    simp only [detectStep, hc]
    rw [if_pos ⟨hv, hm⟩]
  · intro hm
    simp only [detectStep, hc]
    rw [if_neg fun hcond => hm hcond.2]

/-- C3 witness: a blue blob that moved from the origin to `(30, 0)`,
a displacement of exactly the 30 px threshold: `movedBeyond` is false
there, so the loop falls through to the remaining colors instead of
triggering. -/
theorem C3_strictThreshold_witness :
    (movedBeyond ⟨30, 0⟩ (primedState.lastCentroids.getD 0 invalidPt) ↔
       ((motionThreshold : ℤ) : ℝ) <
         Real.sqrt ((((⟨30, 0⟩ : Pt).x - (primedState.lastCentroids.getD 0 invalidPt).x : ℤ) : ℝ) ^ 2 +
           (((⟨30, 0⟩ : Pt).y - (primedState.lastCentroids.getD 0 invalidPt).y : ℤ) : ℝ) ^ 2)) ∧
    (movedBeyond ⟨30, 0⟩ (primedState.lastCentroids.getD 0 invalidPt) →
       detectStep frameBlue30 (0 :: [1, 2, 3, 4, 5]) primedState.lastCentroids =
         (primedState.lastCentroids, some 0)) ∧
    (¬ movedBeyond ⟨30, 0⟩ (primedState.lastCentroids.getD 0 invalidPt) →
       detectStep frameBlue30 (0 :: [1, 2, 3, 4, 5]) primedState.lastCentroids =
         detectStep frameBlue30 [1, 2, 3, 4, 5] (primedState.lastCentroids.set 0 ⟨30, 0⟩)) :=
  C3_strictThreshold frameBlue30 0 [1, 2, 3, 4, 5] primedState.lastCentroids ⟨30, 0⟩
    (by decide) (by decide)

/-- C5: if the loop reaches color `i` with no trigger so far and both
`i` and a later color `j` exceed the threshold, only `i` (the first in
priority order) triggers: the result is independent of everything after
`i` in the order, and `j`'s stored centroid is left exactly as it was
before the attempt. -/
theorem C5_priorityShortCircuit (hsv : Frame) (pre mid post : List Nat) (i j : Nat)
    (cents cents0 : List Pt) (ci cj : Pt)
    (hpre : detectStep hsv pre cents = (cents0, none))
    (hjpre : j ∉ pre)
    (hci : procCentroid hsv i = some ci)
    (hvi : cents0.getD i invalidPt ≠ invalidPt)
    (hmi : movedBeyond ci (cents0.getD i invalidPt))
    (hcj : procCentroid hsv j = some cj)
    (hvj : cents.getD j invalidPt ≠ invalidPt)
    (hmj : movedBeyond cj (cents.getD j invalidPt)) :
    detectStep hsv (pre ++ (i :: (mid ++ (j :: post)))) cents = (cents0, some i) ∧
    cents0.getD j invalidPt = cents.getD j invalidPt := by
  have h2 : cents0.getD j invalidPt = cents.getD j invalidPt := by
    have h := detectStep_getD_not_mem hsv pre cents j invalidPt hjpre
    rw [hpre] at h
    exact h
  refine ⟨?_, h2⟩
  rw [detectStep_append_none hsv pre (i :: (mid ++ (j :: post))) cents cents0 hpre]
  simp only [detectStep, hci]
  rw [if_pos ⟨hvi, hmi⟩]

/-- C5 witness: a frame in which both the blue blob (slot 0) and the
yellow blob (slot 4) moved more than 30 px from their stored origins;
blue triggers, yellow's slot is untouched. -/
theorem C5_priorityShortCircuit_witness :
    detectStep frameBlueYellow ([] ++ (0 :: ([1, 2, 3] ++ (4 :: [5])))) centsBlueYellow =
      (centsBlueYellow, some 0) ∧
    centsBlueYellow.getD 4 invalidPt = centsBlueYellow.getD 4 invalidPt :=
  C5_priorityShortCircuit frameBlueYellow [] [1, 2, 3] [5] 0 4
    centsBlueYellow centsBlueYellow ⟨40, 0⟩ ⟨50, 7⟩
    rfl (by decide) (by decide) (by decide) (by decide) (by decide) (by decide) (by decide)

/-- C7: a color whose filtered mask has zero mass on this attempt
keeps its stored tracked centroid: a valid prior value is never
overwritten with the invalid sentinel. -/
theorem C7_emptyMaskKeepsCentroid (hsv : Frame) (cents : List Pt) (i : Nat)
    (h : (maskMoments (procMask hsv i)).m00 = 0) :
    ((detect hsv cents).1).getD i invalidPt = cents.getD i invalidPt := by
  apply detectStep_getD_of_procNone
  simp [procCentroid, h]

/-- C7 witness: a frame holding only a blue pixel has an empty green
mask (slot 3), and the attempt leaves the stored green centroid
`(5, 5)` exactly in place. -/
theorem C7_emptyMaskKeepsCentroid_witness :
    (maskMoments (procMask frameBlue40 3)).m00 = 0 ∧
    ((detect frameBlue40 centsGreen).1).getD 3 invalidPt = centsGreen.getD 3 invalidPt :=
  ⟨by decide, C7_emptyMaskKeepsCentroid frameBlue40 centsGreen 3 (by decide)⟩

/-- C4: a session started by a triggering frame writes that frame and
then exactly the next `maxRecordingFrames - 1` frames — 450 in total,
`round(15 × 30) = 450` — then closes the sink (`writerOpen = false`)
and returns to the idle state, leaving the inner loop. -/
theorem C4_sessionFrameBound (t : Int) (f : Frame) (fs : List (Int × Option Frame))
    (s : CycleState)
    (h1 : attemptGate t s) (h2 : ((detect f s.lastCentroids).2).isSome)
    (h3 : fs.length + 1 = maxRecordingFrames)
    (h4 : ∀ x ∈ fs, x.2.isSome) :
    maxRecordingFrames = 450 ∧
    ∃ s1, runFrames ((t, some f) :: fs) s = .clipDone s1 [] ∧
      s1.written = s.written ++ f :: (fs.filterMap fun x => x.2) ∧
      s1.written.length = s.written.length + 450 ∧
      s1.isRecording = false ∧ s1.writerOpen = false := by
  refine ⟨maxRecordingFrames_eq, ?_⟩
  have htrig := processFrame_trigger t f s h1 h2
  obtain ⟨s1, hrun, hw, hrec, hopen⟩ :=
    runFrames_recording fs
      { s with lastCentroids := (detect f s.lastCentroids).1,
               isRecording := true, recordingFrames := 1, writerOpen := true,
               written := s.written ++ [f] }
      rfl (by show (1 : Nat) < maxRecordingFrames; rw [maxRecordingFrames_eq]; omega)
      (by show 1 + fs.length = maxRecordingFrames; omega)
      h4
  have hw2 : s1.written = s.written ++ f :: (fs.filterMap fun x => x.2) := by
    rw [hw]
    simp
  refine ⟨s1, ?_, hw2, ?_, hrec, hopen⟩
  · simp only [runFrames, htrig]
    exact hrun
  · rw [hw2]
    have hl := length_filterMap_isSome fs h4
    rw [maxRecordingFrames_eq] at h3
    simp only [List.length_append, List.length_cons, hl]
    omega

/-- C4 witness: from the primed idle state, the triggering blue frame
plus 449 further camera frames yield a closed 450-frame clip. -/
theorem C4_sessionFrameBound_witness :
    maxRecordingFrames = 450 ∧
    ∃ s1, runFrames ((0, some frameBlue40) :: List.replicate 449 ((1 : Int), some frameBlue40))
        primedState = .clipDone s1 [] ∧
      s1.written = primedState.written ++
        frameBlue40 :: ((List.replicate 449 ((1 : Int), some frameBlue40)).filterMap fun x => x.2) ∧
      s1.written.length = primedState.written.length + 450 ∧
      s1.isRecording = false ∧ s1.writerOpen = false :=
  C4_sessionFrameBound 0 frameBlue40 (List.replicate 449 ((1 : Int), some frameBlue40))
    primedState (by decide) (by decide) (by rw [List.length_replicate, maxRecordingFrames_eq])
    (fun x hx => by rw [List.eq_of_mem_replicate hx]; rfl)

/-- C10: the frame whose displacement triggers motion is written to
the sink in the same loop iteration (lines 121–131 set the flag, lines
141–143 immediately write), and it counts as the first of the capped
frames: the counter stands at 1 afterwards. -/
theorem C10_triggerFrameWritten (now : Int) (f : Frame) (s : CycleState)
    (h1 : attemptGate now s) (h2 : ((detect f s.lastCentroids).2).isSome) :
    ∃ s1, processFrame now (some f) s = .next s1 ∧
      s1.written = s.written ++ [f] ∧ s1.recordingFrames = 1 ∧ s1.isRecording = true :=
  ⟨_, processFrame_trigger now f s h1 h2, rfl, rfl, rfl⟩

/-- C10 witness: the triggering blue frame is written at once, with
the counter at 1. -/
theorem C10_triggerFrameWritten_witness :
    ∃ s1, processFrame 0 (some frameBlue40) primedState = .next s1 ∧
      s1.written = primedState.written ++ [frameBlue40] ∧
      s1.recordingFrames = 1 ∧ s1.isRecording = true :=
  C10_triggerFrameWritten 0 frameBlue40 primedState (by decide) (by decide)

end MotionDetector
